import Mathlib

/-!
Shallow embedding of the aicgen-site repository (a React landing page) and
proofs about the claims of its specification.

Components embedded:
* `Terminal`   — the animated terminal mock (timed line reveals on a loop)
* `Features`   — the feature-card grid
* `Installation` — platform tabs, platform auto-detection, clipboard copy
* `Navbar`     — mobile menu toggle
* `SiteData`   — the centralized SITE_DATA configuration
* hyperlink inventory of all rendered components
-/

namespace AicgenSite

/-! ## Terminal component (Terminal.tsx)

The component keeps a `lines : string[]` state.  On mount it runs
`runAnimation`, which resets `lines` to `[]` and schedules one `setTimeout`
per step (appending that step's text after `step.delay` ms), pushing every
timeout id into a `timeouts` array; an interval re-runs `runAnimation`
every 9000 ms; the effect cleanup clears the interval and every id in
`timeouts`. -/

structure Step where
  text : String
  delay : Nat
  color : Option String
deriving DecidableEq, Repr

namespace Terminal

/-- The `steps` literal of the component, verbatim. -/
def steps : List Step :=
  [ ⟨"> navigate to project...", 500, none⟩,
    ⟨"> aicgen init", 1500, none⟩,
    ⟨"✔  Analyzing project structure...", 2500, some "text-blue-400"⟩,
    ⟨"? Select AI Assistant › Claude Code", 3500, some "text-primary"⟩,
    ⟨"? Choose Architecture › Modular Monolith", 4500, some "text-primary"⟩,
    ⟨"✔  Configuration generated successfully!", 5500, some "text-success"⟩,
    ⟨"  + .claude/settings.json", 6000, some "text-textGray"⟩,
    ⟨"  + .claude/guidelines/architecture.md", 6200, some "text-textGray"⟩,
    ⟨"  + .claude/agents/checker.md", 6400, some "text-textGray"⟩,
    ⟨"> Ready to code.", 7000, some "text-white"⟩ ]

/-- The interval period of the `setInterval(runAnimation, 9000)` loop. -/
def loopIntervalMs : Nat := 9000

/-- Timer-queue insertion: a newly considered timeout fires after every
already-ordered timeout whose delay is `≤` its own (JS timers fire in
delay order, ties broken by scheduling order). -/
def insertTimer (s : Step) : List Step → List Step
  | [] => [s]
  | t :: ts => if s.delay < t.delay then s :: t :: ts else t :: insertTimer s ts

/-- The order in which one batch of timeouts (scheduled left to right by
`steps.forEach`) fires: stable sort of the batch by delay. -/
def firingOrder (batch : List Step) : List Step :=
  batch.foldl (fun acc s => insertTimer s acc) []

/-- One event of the animation.  `fire` delivers the next pending timeout,
appending its text to `lines` (`setLines(prev => [...prev, step.text])`).
`reset` is the 9000 ms interval tick re-running `runAnimation`: it sets
`lines` to `[]` and schedules a fresh batch of all the steps' timeouts.
Since every delay (≤ 7000) is below the 9000 ms period, all pending
timeouts of an iteration have fired by the time the interval ticks, so the
tick happens with an empty pending queue. -/
inductive Event : List String × List Step → List String × List Step → Prop where
  | fire (ls : List String) (s : Step) (rest : List Step) :
      Event (ls, s :: rest) (ls ++ [s.text], rest)
  | reset (ls : List String) :
      Event (ls, []) ([], firingOrder steps)

/-- States reachable from the state right after the mount-time
`runAnimation()` call: empty `lines`, the full batch pending. -/
def Reach (st : List String × List Step) : Prop :=
  Relation.ReflTransGen Event ([], firingOrder steps) st

/-- The timeout-id array of the effect.  Each run of `runAnimation` pushes
one timeout id per step onto the array (`timeouts.push(timeout)`); the
array is never cleared.  Iteration `i` schedules the ids `(i, j)` for each
step index `j`; `timeoutsArray n` is the array's contents once iterations
`0 .. n` have run (iteration `0` is the mount-time call, iterations
`1 .. n` are interval ticks). -/
def runAnimationPush (arr : List (Nat × Nat)) (iter : Nat) : List (Nat × Nat) :=
  arr ++ (List.range steps.length).map (fun j => (iter, j))

def timeoutsArray : Nat → List (Nat × Nat)
  | 0 => runAnimationPush [] 0
  | n + 1 => runAnimationPush (timeoutsArray n) (n + 1)

/-- The effect cleanup runs `timeouts.forEach(clearTimeout)`: a timeout
still pending at teardown stays scheduled afterwards only if its id is not
in the array. -/
def pendingAfterCleanup (pending : List (Nat × Nat)) (n : Nat) :
    List (Nat × Nat) :=
  pending.filter (fun t => decide (t ∉ timeoutsArray n))

end Terminal

/-! ## Features component

The component holds a `features : Feature[]` literal (title, description,
icon) and renders `features.map((feature, index) => <card>)`: one card per
element, showing the feature's icon, title and description. -/

structure Feature where
  title : String
  description : String
  icon : String
deriving DecidableEq, Repr

namespace Features

/-- The `features` literal of the Features component, verbatim (icons by
their imported component name). -/
def features : List Feature :=
  [ ⟨"Multi-Assistant Support",
     "Supports Claude Code, GitHub Copilot, Gemini, Antigravity, and Codex out of the box.",
     "Cpu"⟩,
    ⟨"75+ Guidelines",
     "Comprehensive coverage across 12 categories including Security, API Design, and Performance.",
     "Shield"⟩,
    ⟨"Interactive CLI Wizard",
     "Professional setup wizard with smart defaults, back navigation, and auto-detection.",
     "Zap"⟩,
    ⟨"Hooks & Sub-Agents",
     "Auto-generates verification agents and hooks specifically for Claude Code workflows.",
     "Code"⟩,
    ⟨"Architecture Aware",
     "Tailors guidelines for Microservices, Hexagonal, Modular Monoliths, and Event-Driven systems.",
     "Layers"⟩,
    ⟨"Zero Dependencies",
     "Self-contained binary with all guideline data embedded. Works completely offline.",
     "Box"⟩ ]

/-- What one rendered card displays. -/
structure Card where
  icon : String
  title : String
  description : String
deriving DecidableEq, Repr

/-- `features.map(...)`: the list of cards rendered by the component. -/
def renderCards (fs : List Feature) : List Card :=
  fs.map (fun f => ⟨f.icon, f.title, f.description⟩)

end Features

/-! ## Centralized SITE_DATA configuration (siteData.ts) -/

namespace SiteData

structure Stats where
  guidelines : Nat
  categories : Nat
  languages : Nat
  assistants : Nat
deriving DecidableEq, Repr

def stats : Stats := ⟨91, 12, 9, 5⟩

def languages : List String :=
  [ "TypeScript", "JavaScript", "Python", "Go", "Rust",
    "Java", "C#", "Ruby", "Dart", "Swift" ]

def assistants : List String :=
  [ "Claude Code", "GitHub Copilot", "Gemini", "Codex", "Antigravity" ]

def categories : List String :=
  [ "Language", "Architecture", "Testing", "Security", "Performance",
    "Database", "API Design", "Code Style", "Error Handling", "DevOps",
    "Best Practices", "Design Patterns" ]

/-- One entry of `SITE_DATA.features` (title and description). -/
structure SiteFeature where
  title : String
  description : String
deriving DecidableEq, Repr

/-- The six entries of `SITE_DATA.features`, in declaration order
(multiAssistant, guidelines, interactiveCLI, hooksSubAgents,
architectureAware, zeroDependencies). -/
def featuresList : List SiteFeature :=
  [ ⟨"Multi-Assistant Support",
     "Supports Claude Code, GitHub Copilot, Gemini, Antigravity, and Codex out of the box."⟩,
    ⟨"91 Guidelines",
     "Comprehensive coverage across 12 categories including Security, API Design, and Performance."⟩,
    ⟨"Interactive CLI Wizard",
     "Professional setup wizard with smart defaults, back navigation, and auto-detection."⟩,
    ⟨"Hooks & Sub-Agents",
     "Auto-generates verification agents and hooks specifically for Claude Code workflows."⟩,
    ⟨"Architecture Aware",
     "Tailors guidelines for Microservices, Hexagonal, Modular Monoliths, and Event-Driven systems."⟩,
    ⟨"Zero Dependencies",
     "Self-contained binary with all guideline data embedded. Works completely offline."⟩ ]

def githubUrl : String := "https://github.com/lpsandaruwan/aicgen"

def npmUrl : String := "https://www.npmjs.com/package/@aicgen/aicgen"

end SiteData

/-! ## Installation component (Installation.tsx) -/

/-- The `InstallPlatform` union type of types.ts. -/
inductive InstallPlatform where
  | npm
  | windows
  | mac
  | linux
deriving DecidableEq, Repr

namespace Installation

/-- `pat` occurs as a contiguous run inside `hay` (the semantics of
JavaScript's `String.prototype.includes`). -/
def charsInclude (hay pat : List Char) : Bool :=
  (List.range (hay.length + 1)).any (fun i => (hay.drop i).take pat.length == pat)

/-- `s.includes(pat)` on strings. -/
def strIncludes (s pat : String) : Bool :=
  charsInclude s.toList pat.toList

/-- The mount-time platform auto-detection: lowercase the user agent, then
first match wins among win / mac / linux, with npm as the fallback. -/
def detectPlatform (userAgent : String) : InstallPlatform :=
  let ua := userAgent.toLower
  if strIncludes ua "win" then .windows
  else if strIncludes ua "mac" then .mac
  else if strIncludes ua "linux" then .linux
  else .npm

/-- One entry of the `tabs` array. -/
structure Tab where
  id : InstallPlatform
  label : String
deriving DecidableEq, Repr

/-- The `tabs` literal, verbatim. -/
def tabs : List Tab :=
  [ ⟨.npm, "npm (Rec.)"⟩,
    ⟨.windows, "Windows"⟩,
    ⟨.mac, "macOS"⟩,
    ⟨.linux, "Linux"⟩ ]

def npmInstallCmd : String := "npm install -g @aicgen/aicgen"

def npxInitCmd : String := "npx @aicgen/aicgen init"

/-- Effect of `handleCopy(text)`: the new value of the single shared
`copied` flag, the text written to the clipboard, and the delay (ms) after
which a timeout resets the flag. -/
def handleCopy (text : String) (_copied : Bool) : Bool × String × Nat :=
  (true, text, 2000)

/-- The value the scheduled `setTimeout(() => setCopied(false), 2000)`
callback writes back. -/
def copiedResetValue : Bool := false

/-- Icon rendered on a copy button. -/
inductive CopyIcon where
  | check
  | copy
deriving DecidableEq, Repr

/-- The first (npm install) block's button: `copied ? <Check/> : <Copy/>`. -/
def npmInstallButtonIcon (copied : Bool) : CopyIcon :=
  if copied then .check else .copy

/-- The second (npx) block's button always renders `<Copy/>`. -/
def npxButtonIcon (_copied : Bool) : CopyIcon := .copy

def releasesUrl : String := "https://github.com/lpsandaruwan/aicgen/releases/latest"

/-- The hrefs rendered by `renderContent()` for each active tab. -/
def renderContentHrefs : InstallPlatform → List String
  | .npm => []
  | .windows => [releasesUrl]
  | .mac => [releasesUrl]
  | .linux => [releasesUrl]

end Installation

/-! ## Navbar component (Navbar.tsx) -/

namespace Navbar

def navLinkHrefs : List String := ["#features", "#how-it-works", "#installation"]

/-- The menu button's onClick: `setIsOpen(!isOpen)`. -/
def clickMenuButton (isOpen : Bool) : Bool := !isOpen

/-- A mobile nav link's onClick: `setIsOpen(false)`. -/
def clickMobileNavLink (_isOpen : Bool) : Bool := false

/-- All hrefs the Navbar renders: the three desktop nav links and the
GitHub link, plus — when the mobile menu is open — the three mobile nav
links and the mobile GitHub link. -/
def navbarHrefs (isOpen : Bool) : List String :=
  navLinkHrefs ++ [SiteData.githubUrl] ++
    (if isOpen then navLinkHrefs ++ [SiteData.githubUrl] else [])

end Navbar

/-! ## Hyperlink inventory of the rendered page

Hrefs of the remaining components (Hero, Footer; HowItWorks, OutputPreview,
Logo and App render no `href` attributes), and the union over every
component. -/

def heroHrefs : List String := ["#installation", SiteData.githubUrl]

def footerHrefs : List String := [SiteData.githubUrl, SiteData.npmUrl]

/-- Every href rendered anywhere on the page, as a function of the UI
state it depends on (mobile menu open/closed, active install tab). -/
def allRenderedHrefs (menuOpen : Bool) (tab : InstallPlatform) : List String :=
  Navbar.navbarHrefs menuOpen ++ heroHrefs ++
    Installation.renderContentHrefs tab ++ footerHrefs

/-- An absolute http/https URL. -/
def isAbsoluteUrl (s : String) : Bool :=
  s.toList.take 7 == "http://".toList || s.toList.take 8 == "https://".toList

/-- The destinations the spec allows: the source-hosting repository, its
releases page, and the package registry page. -/
def allowedExternal (s : String) : Prop :=
  s = SiteData.githubUrl ∨ s = Installation.releasesUrl ∨ s = SiteData.npmUrl

instance (s : String) : Decidable (allowedExternal s) := by
  unfold allowedExternal
  infer_instance

/-! ## Lemmas about the Terminal animation -/

namespace Terminal

/-- In every reachable state, the displayed lines followed by the texts of
the still-pending timeouts make up exactly the whole batch in firing
order. -/
theorem reach_decomposition (st : List String × List Step) (h : Reach st) :
    st.1 ++ st.2.map Step.text = (firingOrder steps).map Step.text := by
  induction h with
  | refl => simp
  | tail _ e ih =>
    cases e with
    | fire ls s rest => simpa using ih
    | reset ls => simp

/-- The delays of the steps, in list order, are strictly increasing. -/
theorem steps_delays_strict_mono :
    List.Pairwise (· < ·) (steps.map Step.delay) := by decide

/-- Because the delays are already strictly increasing in list order, the
firing order of a batch equals the list order. -/
theorem firingOrder_steps_eq : firingOrder steps = steps := by decide

/-- Every timeout id scheduled by any iteration up to `n` is in the
array that the cleanup iterates over. -/
theorem mem_timeoutsArray (n i j : Nat) (hi : i ≤ n) (hj : j < steps.length) :
    (i, j) ∈ timeoutsArray n := by
  induction n with
  | zero =>
    interval_cases i
    simp only [timeoutsArray, runAnimationPush, List.nil_append, List.mem_map,
      List.mem_range]
    exact ⟨j, hj, rfl⟩
  | succ n ih =>
    simp only [timeoutsArray, runAnimationPush]
    rcases Nat.lt_succ_iff_lt_or_eq.mp (Nat.lt_succ_of_le hi) with h | h
    · exact List.mem_append_left _ (ih (Nat.lt_succ_iff.mp h))
    · subst h
      refine List.mem_append_right _ ?_
      simp only [List.mem_map, List.mem_range]
      exact ⟨j, hj, rfl⟩

end Terminal

/-! ## Claim theorems -/

/-- C1: the Terminal steps pair each text with a strictly increasing delay
running from 500 ms up to 7000 ms, and in every reachable state of the
timer-driven animation the displayed lines array extends (by the pending
texts) to the steps' texts in list order — i.e. it is an initial segment of
them, so entries are revealed one at a time in delay order and no entry
appears before an earlier-delay entry. -/
theorem terminal_lines_reveal_in_order :
    List.Pairwise (· < ·) (Terminal.steps.map Step.delay) ∧
    (Terminal.steps.map Step.delay).head? = some 500 ∧
    (Terminal.steps.map Step.delay).getLast? = some 7000 ∧
    ∀ st, Terminal.Reach st →
      ∃ rest, st.1 ++ rest = Terminal.steps.map Step.text := by
  refine ⟨Terminal.steps_delays_strict_mono, by decide, by decide, ?_⟩
  intro st h
  refine ⟨st.2.map Step.text, ?_⟩
  have hd := Terminal.reach_decomposition st h
  rwa [Terminal.firingOrder_steps_eq] at hd

/-- Witness for C1 at the initial reachable state. -/
theorem terminal_lines_reveal_in_order_witness :
    Terminal.Reach ([], Terminal.firingOrder Terminal.steps) ∧
    ∃ rest, ([] : List String) ++ rest = Terminal.steps.map Step.text :=
  ⟨Relation.ReflTransGen.refl,
   terminal_lines_reveal_in_order.2.2.2
     ([], Terminal.firingOrder Terminal.steps) Relation.ReflTransGen.refl⟩

/-- C2: the loop interval is 9000 ms and every step delay is below it; the
batch scheduled each loop iteration covers all the steps; the interval tick
resets the line list to empty and reschedules the full sequence; and at
teardown, since every outstanding timeout's id — from the mount-time run or
any later loop iteration — is in the `timeouts` array that the cleanup
clears, no scheduled reveal survives the cleanup. -/
theorem terminal_cleanup_cancels_everything :
    Terminal.loopIntervalMs = 9000 ∧
    (∀ s ∈ Terminal.steps, s.delay < Terminal.loopIntervalMs) ∧
    (Terminal.firingOrder Terminal.steps).length = Terminal.steps.length ∧
    (∀ ls, Terminal.Event (ls, []) ([], Terminal.firingOrder Terminal.steps)) ∧
    (∀ n pending,
      (∀ t ∈ pending, t.1 ≤ n ∧ t.2 < Terminal.steps.length) →
      Terminal.pendingAfterCleanup pending n = []) := by
  refine ⟨rfl, by decide, by decide, fun ls => Terminal.Event.reset ls, ?_⟩
  intro n pending hp
  rw [Terminal.pendingAfterCleanup, List.filter_eq_nil_iff]
  intro t ht
  have h := hp t ht
  have hm : t ∈ Terminal.timeoutsArray n := by
    have := Terminal.mem_timeoutsArray n t.1 t.2 h.1 h.2
    simpa using this
  simp [hm]

/-- Witness for C2: two timeouts pending at teardown after one interval
tick — one from the mount-time run, one from the tick — are both
cancelled. -/
theorem terminal_cleanup_cancels_everything_witness :
    (∀ t ∈ [((0 : Nat), (9 : Nat)), (1, 0)],
      t.1 ≤ 1 ∧ t.2 < Terminal.steps.length) ∧
    Terminal.pendingAfterCleanup [(0, 9), (1, 0)] 1 = [] :=
  ⟨by decide,
   terminal_cleanup_cancels_everything.2.2.2.2 1 [(0, 9), (1, 0)] (by decide)⟩

/-- C3: the Features component's `features` array has exactly six
elements, and the component renders exactly one card per element. -/
theorem features_renders_six_cards :
    Features.features.length = 6 ∧
    (Features.renderCards Features.features).length = 6 ∧
    ∀ fs : List Feature, (Features.renderCards fs).length = fs.length := by
  refine ⟨rfl, rfl, fun fs => ?_⟩
  simp [Features.renderCards]

/-- C4: the Installation `tabs` array's ids are exactly npm, windows, mac,
linux in that order, each occurring once, and every value of
`InstallPlatform` occurs among them. -/
theorem tabs_exactly_the_four_platforms :
    Installation.tabs.map Installation.Tab.id =
      [InstallPlatform.npm, InstallPlatform.windows,
       InstallPlatform.mac, InstallPlatform.linux] ∧
    ∀ p : InstallPlatform,
      p ∈ Installation.tabs.map Installation.Tab.id ∧
      (Installation.tabs.map Installation.Tab.id).count p = 1 := by
  refine ⟨rfl, fun p => ?_⟩
  cases p <;> exact ⟨by decide, by decide⟩

/-- C5: for every user-agent string the mount-time platform detection
returns exactly one of the four `InstallPlatform` values, chosen by
first-match precedence on the lowercased string: windows if it contains
"win", else mac if it contains "mac", else linux if it contains "linux",
else npm. -/
theorem detectPlatform_first_match_total :
    ∀ ua : String,
      Installation.detectPlatform ua ∈
        [InstallPlatform.npm, InstallPlatform.windows,
         InstallPlatform.mac, InstallPlatform.linux] ∧
      (Installation.strIncludes ua.toLower "win" = true →
        Installation.detectPlatform ua = InstallPlatform.windows) ∧
      (Installation.strIncludes ua.toLower "win" = false →
        Installation.strIncludes ua.toLower "mac" = true →
        Installation.detectPlatform ua = InstallPlatform.mac) ∧
      (Installation.strIncludes ua.toLower "win" = false →
        Installation.strIncludes ua.toLower "mac" = false →
        Installation.strIncludes ua.toLower "linux" = true →
        Installation.detectPlatform ua = InstallPlatform.linux) ∧
      (Installation.strIncludes ua.toLower "win" = false →
        Installation.strIncludes ua.toLower "mac" = false →
        Installation.strIncludes ua.toLower "linux" = false →
        Installation.detectPlatform ua = InstallPlatform.npm) := by
  intro ua
  refine ⟨?_, ?_, ?_, ?_, ?_⟩ <;>
    simp only [Installation.detectPlatform] <;>
    cases hw : Installation.strIncludes ua.toLower "win" <;>
    cases hm : Installation.strIncludes ua.toLower "mac" <;>
    cases hl : Installation.strIncludes ua.toLower "linux" <;>
    simp [hw, hm, hl]

/-- C6: every absolute http/https href rendered by any component, in any
UI state, is the GitHub repository URL, its releases page, or the npm
package page. -/
theorem external_links_allowed :
    ∀ (menuOpen : Bool) (tab : InstallPlatform),
      ∀ h ∈ allRenderedHrefs menuOpen tab,
        isAbsoluteUrl h = true → allowedExternal h := by
  intro menuOpen tab
  cases menuOpen <;> cases tab <;> decide

/-- Witness for C6: the GitHub link of the Navbar. -/
theorem external_links_allowed_witness :
    SiteData.githubUrl ∈ allRenderedHrefs false InstallPlatform.npm ∧
    isAbsoluteUrl SiteData.githubUrl = true ∧
    allowedExternal SiteData.githubUrl :=
  ⟨by decide, by decide,
   external_links_allowed false InstallPlatform.npm SiteData.githubUrl
     (by decide) (by decide)⟩

/-- C7: the mobile-menu state is a pure toggle — each button click negates
`isOpen`, two consecutive clicks restore the original state, and clicking
any mobile nav link closes the menu. -/
theorem navbar_menu_pure_toggle :
    (∀ b, Navbar.clickMenuButton b = !b) ∧
    (∀ b, Navbar.clickMenuButton (Navbar.clickMenuButton b) = b) ∧
    (∀ b, Navbar.clickMobileNavLink b = false) := by
  refine ⟨fun b => rfl, fun b => ?_, fun b => rfl⟩
  cases b <;> rfl

/-- C8 counterexample: the second feature card's title is
"75+ Guidelines" while the second `SITE_DATA.features` entry's title is
"91 Guidelines", so the cards do not all equal the SITE_DATA entries. -/
theorem features_site_data_title_mismatch :
    (Features.features.map Feature.title).get? 1 = some "75+ Guidelines" ∧
    (SiteData.featuresList.map SiteData.SiteFeature.title).get? 1 =
      some "91 Guidelines" ∧
    ¬ (Features.features.map Feature.title =
        SiteData.featuresList.map SiteData.SiteFeature.title) := by
  decide

/-- C8 (amended): the six cards match the six `SITE_DATA.features` entries
pairwise in order on descriptions everywhere and on titles at every index
but 1, where the card reads "75+ Guidelines" and SITE_DATA reads
"91 Guidelines". -/
theorem features_match_site_data_amended :
    Features.features.length = 6 ∧
    SiteData.featuresList.length = 6 ∧
    Features.features.map Feature.description =
      SiteData.featuresList.map SiteData.SiteFeature.description ∧
    (∀ i : Fin 6, i.val ≠ 1 →
      (Features.features.map Feature.title).get? i.val =
        (SiteData.featuresList.map SiteData.SiteFeature.title).get? i.val) ∧
    (Features.features.map Feature.title).get? 1 = some "75+ Guidelines" ∧
    (SiteData.featuresList.map SiteData.SiteFeature.title).get? 1 =
      some "91 Guidelines" := by
  decide

/-- C9 counterexample: `SITE_DATA.stats.languages` is 9 but the
`languages` array has 10 entries. -/
theorem stats_languages_count_mismatch :
    SiteData.stats.languages = 9 ∧
    SiteData.languages.length = 10 ∧
    SiteData.stats.languages ≠ SiteData.languages.length := by
  decide

/-- C9 (amended): the categories and assistants stats equal the lengths of
their arrays, but the languages stat (9) is one less than the length of the
languages array (10). -/
theorem stats_counts_amended :
    SiteData.stats.categories = SiteData.categories.length ∧
    SiteData.stats.assistants = SiteData.assistants.length ∧
    SiteData.stats.languages + 1 = SiteData.languages.length := by
  decide

/-- C10: both copy buttons drive the one shared `copied` flag — clicking
either sets it to true, writes its own command to the clipboard and
schedules a reset to false after 2000 ms — but only the npm-install block's
button renders the check indicator from the flag; the npx button always
renders the plain copy icon, so copying the npx command shows the copied
indicator on the npm block. -/
theorem copy_buttons_shared_flag :
    (∀ c, (Installation.handleCopy Installation.npmInstallCmd c).1 = true) ∧
    (∀ c, (Installation.handleCopy Installation.npxInitCmd c).1 = true) ∧
    (∀ t c, (Installation.handleCopy t c).2.1 = t) ∧
    (∀ t c, (Installation.handleCopy t c).2.2 = 2000) ∧
    Installation.copiedResetValue = false ∧
    Installation.npmInstallButtonIcon true = Installation.CopyIcon.check ∧
    Installation.npmInstallButtonIcon false = Installation.CopyIcon.copy ∧
    (∀ c, Installation.npxButtonIcon c = Installation.CopyIcon.copy) ∧
    (∀ c, Installation.npmInstallButtonIcon
        (Installation.handleCopy Installation.npxInitCmd c).1 =
      Installation.CopyIcon.check) :=
  ⟨fun _ => rfl, fun _ => rfl, fun _ _ => rfl, fun _ _ => rfl, rfl, rfl, rfl,
   fun _ => rfl, fun _ => rfl⟩

end AicgenSite
